import Mathlib

/-!
# Verification of the Apple StoreKit 2 JWS transaction verifier

Shallow embedding of `src/apple_jws.py`.  Bytes are modelled as `List Nat`
(each entry `< 256` on real inputs), strings as Lean `String`s.  The
cryptographic primitives (ECDSA / RSA-PKCS#1-v1.5 signature checking), the
JSON parser and the X.509 DER parser are library calls in the source; they
are modelled as an explicit record of oracles (`CryptoPrims`) the pipeline
is parameterised over, so every theorem quantifies over their behaviour.
The process-global trust-anchor cache (`_cached_root_ca`) is modelled by
explicit state passing: each call takes the cache before the call and
returns the cache after it, together with what the network would have
answered had it been consulted (`FetchResult`).
-/

namespace AppleJws

/-- The hash algorithm a certificate declares for its own signature
(`signature_hash_algorithm` in the source).  The JWS stage always uses
SHA-256 (`hashes.SHA256()` at line 140). -/
inductive HashAlg where
  | sha256
  | sha384
  | otherAlg (tag : Nat)
deriving DecidableEq, Repr, Inhabited

/-- An issuer public key as the source distinguishes it: an elliptic-curve
key (`ec.EllipticCurvePublicKey`), an RSA key (`rsa.RSAPublicKey`), or any
other key type (the `else` branch of `_verify_cert_signed_by`).  The `Nat`
is an abstract identity for the concrete key object. -/
inductive PubKey where
  | ec (key : Nat)
  | rsa (key : Nat)
  | otherKey (key : Nat)
deriving DecidableEq, Repr, Inhabited

/-- A parsed X.509 certificate, exposing exactly the accessors the source
uses: `signature`, `tbs_certificate_bytes`, `signature_hash_algorithm`,
`public_key()`, and `fingerprint(hashes.SHA256()).hex()` (kept as the hex
string the source compares at line 44). -/
structure Cert where
  signature : List Nat
  tbsCertificateBytes : List Nat
  signatureHashAlgorithm : HashAlg
  publicKey : PubKey
  fingerprintSHA256 : String
deriving DecidableEq, Repr, Inhabited

/-- Abstract parsed JSON document: the value `json.loads` returns for the
payload segment.  Verification returns it untouched, so its internal
structure is irrelevant and is abstracted to an identifier. -/
structure JsonDoc where
  docId : Nat
deriving DecidableEq, Repr, Inhabited

/-- What `json.loads` on the decoded header yields, restricted to the shapes
the pipeline inspects: a non-object JSON value (on which `header.get` at
line 100 raises `AttributeError`), an object without an `x5c` field (the
`.get` default `[]`), or an object whose `x5c` field is an array of strings
(the only `x5c` shape the claims exercise). -/
inductive JwsHeader where
  | notAnObject
  | objWithoutX5c
  | objWithX5c (x5c : List String)
deriving DecidableEq, Repr, Inhabited

/-- The two failure modes of `_verify_cert_signed_by` (lines 58-71): the
`else` branch raising `Unsupported issuer key type`, and `InvalidSignature`
mapped to `Certificate signature verification failed`. -/
inductive LinkErr where
  | unsupportedKeyType
  | sigVerificationFailed
deriving DecidableEq, Repr, Inhabited

/-- The observable failure outcomes of `verify_apple_jws`, one constructor
per distinct `raise` site.  The `uncaught…` constructors model exceptions
that escape the function without being converted to a `ValueError`:
`AttributeError` from `header.get` on a non-dict header (line 100),
`binascii.Error` from the unguarded `_b64url_decode(sig_b64)` (line 129),
and `TypeError` from calling `.verify` with ECDSA arguments on a non-EC
leaf key (line 140). -/
inductive VErr where
  | malformedToken
  | malformedHeader
  | missingCertificateChain
  | certChainParseError
  | chainBrokenAt (index : Nat) (inner : LinkErr)
  | chainNotTrusted
  | anchorFetchFailed
  | anchorFingerprintMismatch
  | badSignatureLength (got : Nat)
  | invalidSignature
  | malformedPayload
  | uncaughtAttributeError
  | uncaughtBinasciiError
  | uncaughtTypeError
deriving DecidableEq, Repr, Inhabited

/-- The library primitives the source delegates to, as oracles:
`ecdsaVerify key sig msg alg` models `pub_key.verify(sig, msg, ec.ECDSA(alg))`,
`rsaPkcs1v15Verify` models `pub_key.verify(sig, msg, padding.PKCS1v15(), alg)`,
`jsonParseHeader` models `json.loads` on the decoded header bytes,
`certEntryParse` models `x509.load_der_x509_certificate(base64.b64decode(c))`
on one `x5c` entry (failure of either step gives `none`), and
`jsonParsePayload` models `json.loads` on the decoded payload bytes. -/
structure CryptoPrims where
  ecdsaVerify : Nat → List Nat → List Nat → HashAlg → Bool
  rsaPkcs1v15Verify : Nat → List Nat → List Nat → HashAlg → Bool
  jsonParseHeader : List Nat → Option JwsHeader
  certEntryParse : String → Option Cert
  jsonParsePayload : List Nat → Option JsonDoc

/-- What the network would answer if `_get_apple_root_ca` performed its
fetch on this call: a transport/HTTP/DER failure (`httpx` errors,
`raise_for_status`, or `load_der_x509_certificate` raising — all escape
uncaught), or a successfully fetched and parsed certificate. -/
inductive FetchResult where
  | fetchErr
  | fetched (cert : Cert)
deriving DecidableEq, Repr, Inhabited

instance {ε α : Type} [DecidableEq ε] [DecidableEq α] : DecidableEq (Except ε α) := fun a b =>
  match a, b with
  | .ok x, .ok y =>
      if h : x = y then .isTrue (by rw [h]) else .isFalse (fun c => h (Except.ok.inj c))
  | .error x, .error y =>
      if h : x = y then .isTrue (by rw [h]) else .isFalse (fun c => h (Except.error.inj c))
  | .ok _, .error _ => .isFalse (fun c => Except.noConfusion c)
  | .error _, .ok _ => .isFalse (fun c => Except.noConfusion c)

/-- The pinned fingerprint `APPLE_ROOT_CA_G3_SHA256` (line 27). -/
def appleRootCaG3Sha256 : String :=
  "63343abfb89a6a03ebb57e2b7b5338e9725e932753e2c18ce075d42cc6fa5870"

/-- Value of one base64 character (standard alphabet), `none` outside it. -/
def b64Char (c : Char) : Option Nat :=
  let n := c.toNat
  if 65 ≤ n ∧ n ≤ 90 then some (n - 65)
  else if 97 ≤ n ∧ n ≤ 122 then some (n - 71)
  else if 48 ≤ n ∧ n ≤ 57 then some (n + 4)
  else if c = '+' then some 62
  else if c = '/' then some 63
  else none

/-- Turn a run of 6-bit values into bytes, dropping the final partial byte,
exactly as base64 decoding of a 2- or 3-character final quad does. -/
def decodeQuads : List Nat → List Nat
  | a :: b :: c :: d :: rest =>
      (a * 4 + b / 16) :: ((b % 16) * 16 + c / 4) :: ((c % 4) * 64 + d) :: decodeQuads rest
  | [a, b] => [a * 4 + b / 16]
  | [a, b, c] => [a * 4 + b / 16, (b % 16) * 16 + c / 4]
  | _ => []

/-- Model of Python `base64.urlsafe_b64decode` as `_b64url_decode` uses it:
`-`/`_` are translated to `+`/`/`, characters outside the base64 alphabet
are discarded (`validate=False`), characters from the first `=` on count as
padding, and decoding fails (raising `binascii.Error` in the source) when
the number of data characters is 1 more than a multiple of 4, or when it is
not a multiple of 4 and no padding is present (CPython "Incorrect padding"). -/
def urlsafeB64decode (s : String) : Option (List Nat) :=
  let translated := s.data.map fun c => if c = '-' then '+' else if c = '_' then '/' else c
  let kept := translated.filter fun c => (b64Char c).isSome || c == '='
  let dataChars := kept.takeWhile fun c => c != '='
  let padCount := kept.length - dataChars.length
  if dataChars.length % 4 == 1 then none
  else if dataChars.length % 4 != 0 && padCount == 0 then none
  else some (decodeQuads (dataChars.filterMap b64Char))

/-- Model of `_b64url_decode` (lines 51-55): add `=` padding up to the next multiple
of 4 characters, then url-safe base64-decode. -/
def b64urlDecode (s : String) : Option (List Nat) :=
  let padding := 4 - s.length % 4
  if padding ≠ 4 then urlsafeB64decode (s ++ String.mk (List.replicate padding '='))
  else urlsafeB64decode s

/-- Model of `str.split(".")` on the character list: Python semantics, so the empty
string yields one empty field and `n` dots yield `n + 1` fields. -/
def splitDotChars : List Char → List (List Char)
  | [] => [[]]
  | c :: rest =>
      if c = '.' then [] :: splitDotChars rest
      else
        match splitDotChars rest with
        | g :: gs => (c :: g) :: gs
        | [] => [[c]]

/-- Model of `token.split(".")` (line 88). -/
def splitOnDot (s : String) : List String :=
  (splitDotChars s.data).map String.mk

/-- Model of `str.encode()`: the UTF-8 bytes of a string (for the base64url segments
involved this coincides with their ASCII bytes). -/
def utf8Bytes (s : String) : List Nat :=
  s.toUTF8.toList.map (fun b => b.toNat)

/-- Model of `int.from_bytes(bs, "big")`. -/
def natFromBytesBE (bs : List Nat) : Nat :=
  bs.foldl (fun acc b => acc * 256 + b) 0

/-- Minimal big-endian byte representation of a natural number; the first
argument is fuel (the number itself suffices). -/
def natToBytesBEAux : Nat → Nat → List Nat
  | 0, n => [n % 256]
  | fuel + 1, n => if n < 256 then [n] else natToBytesBEAux fuel (n / 256) ++ [n % 256]

/-- Minimal big-endian bytes of `n` (`[0]` for `0`). -/
def natToBytesBE (n : Nat) : List Nat :=
  natToBytesBEAux n n

/-- DER `INTEGER` encoding of a non-negative integer whose content is under
128 bytes: tag `0x02`, length, big-endian magnitude with a leading zero
byte when the top bit is set. -/
def derInt (n : Nat) : List Nat :=
  let mag := natToBytesBE n
  let mag := if 128 ≤ mag.headI then 0 :: mag else mag
  2 :: mag.length :: mag

/-- Model of `encode_dss_signature(r, s)` (line 137): the DER
`SEQUENCE { INTEGER r, INTEGER s }` (short-form lengths, which always
suffice for P-256 values). -/
def encodeDssSignature (r s : Nat) : List Nat :=
  let ri := derInt r
  let si := derInt s
  48 :: (ri.length + si.length) :: (ri ++ si)

/-- Model of `_verify_cert_signed_by(child, issuer)` (lines 58-71): dispatch on the
issuer's key type, verify `child.signature` over
`child.tbs_certificate_bytes` with `child.signature_hash_algorithm`;
a non-EC, non-RSA issuer key raises the unsupported-key `ValueError`. -/
def verifyCertSignedBy (prims : CryptoPrims) (child issuer : Cert) : Except LinkErr Unit :=
  match issuer.publicKey with
  | .ec k =>
      if prims.ecdsaVerify k child.signature child.tbsCertificateBytes child.signatureHashAlgorithm
      then .ok () else .error .sigVerificationFailed
  | .rsa k =>
      if prims.rsaPkcs1v15Verify k child.signature child.tbsCertificateBytes child.signatureHashAlgorithm
      then .ok () else .error .sigVerificationFailed
  | .otherKey _ => .error .unsupportedKeyType

/-- Model of `_get_apple_root_ca` (lines 32-48) with the module-global
`_cached_root_ca` passed in and returned explicitly: return the cache when
populated, otherwise consult the network, check the SHA-256 fingerprint
against the pin, and cache only on success. -/
def getAppleRootCA (fetch : FetchResult) (cache : Option Cert) :
    Except VErr Cert × Option Cert :=
  match cache with
  | some c => (.ok c, some c)
  | none =>
      match fetch with
      | .fetchErr => (.error .anchorFetchFailed, none)
      | .fetched cert =>
          if cert.fingerprintSHA256 = appleRootCaG3Sha256 then (.ok cert, some cert)
          else (.error .anchorFingerprintMismatch, none)

/-- A sequence of calls to `_get_apple_root_ca`, one `FetchResult` per call,
starting from a given cache: the list of results and the final cache. -/
def anchorCalls : List FetchResult → Option Cert → List (Except VErr Cert) × Option Cert
  | [], cache => ([], cache)
  | f :: fs, cache =>
      let rc := getAppleRootCA f cache
      let rest := anchorCalls fs rc.2
      (rc.1 :: rest.1, rest.2)

/-- The certificate-chain list comprehension (line 109): parse every entry,
failing as a whole if any entry fails. -/
def parseCertEntries (f : String → Option Cert) : List String → Option (List Cert)
  | [] => some []
  | c :: cs =>
      match f c, parseCertEntries f cs with
      | some cert, some certs => some (cert :: certs)
      | _, _ => none

/-- The chain loop (lines 114-118): `for i in range(len(certs) - 1)`, verify
`certs[i]` against `certs[i+1]`, wrapping any link failure as
`Chain broken at position i`.  The second argument is the index of the
first element of the remaining list. -/
def chainLoop (prims : CryptoPrims) : List Cert → Nat → Except VErr Unit
  | c1 :: c2 :: rest, i =>
      match verifyCertSignedBy prims c1 c2 with
      | .ok () => chainLoop prims (c2 :: rest) (i + 1)
      | .error e => .error (.chainBrokenAt i e)
  | _, _ => .ok ()

/-- Lines 88-111 of `verify_apple_jws`: split the token, decode and parse
the header, extract `x5c` (default `[]`; a non-dict header raises
`AttributeError` at `.get`), require at least two entries, and parse every
entry as a certificate. -/
def parseStage (prims : CryptoPrims) (token : String) :
    Except VErr (String × String × String × List Cert) :=
  match splitOnDot token with
  | [headerB64, payloadB64, sigB64] =>
      match (b64urlDecode headerB64).bind prims.jsonParseHeader with
      | none => .error .malformedHeader
      | some .notAnObject => .error .uncaughtAttributeError
      | some hdr =>
          let x5c := match hdr with | .objWithX5c l => l | _ => []
          if x5c.length < 2 then .error .missingCertificateChain
          else
            match parseCertEntries prims.certEntryParse x5c with
            | none => .error .certChainParseError
            | some certs => .ok (headerB64, payloadB64, sigB64, certs)
  | _ => .error .malformedToken

/-- Lines 122-150 of `verify_apple_jws`, the part after the anchor is in
hand: verify the last chain element against the anchor (any failure becomes
`chainNotTrusted`), build the signing input from the two original base64url
segments, decode the signature segment (unguarded, so failure escapes as
`binascii.Error`), require 64 raw bytes, split into big-endian R and S,
re-encode as DER, ECDSA/SHA-256-verify under the leaf key (a non-EC leaf
key makes the `.verify` call itself raise), then decode the payload. -/
def postAnchor (prims : CryptoPrims) (certs : List Cert) (anchor : Cert)
    (headerB64 payloadB64 sigB64 : String) : Except VErr JsonDoc :=
  match verifyCertSignedBy prims certs.getLast! anchor with
  | .error _ => .error .chainNotTrusted
  | .ok () =>
      let signingInput := utf8Bytes (headerB64 ++ "." ++ payloadB64)
      match b64urlDecode sigB64 with
      | none => .error .uncaughtBinasciiError
      | some rawSig =>
          if rawSig.length ≠ 64 then .error (.badSignatureLength rawSig.length)
          else
            let r := natFromBytesBE (rawSig.take 32)
            let s := natFromBytesBE (rawSig.drop 32)
            let derSig := encodeDssSignature r s
            match certs.head!.publicKey with
            | .ec k =>
                if prims.ecdsaVerify k derSig signingInput .sha256 then
                  match (b64urlDecode payloadB64).bind prims.jsonParsePayload with
                  | none => .error .malformedPayload
                  | some payload => .ok payload
                else .error .invalidSignature
            | _ => .error .uncaughtTypeError

/-- Model of `verify_apple_jws(token)` (lines 74-150) with the anchor cache passed
and returned explicitly.  Stage order follows the source: parse, internal
chain loop, anchor fetch, final link, JWS signature, payload decode. -/
def verifyAppleJws (prims : CryptoPrims) (fetch : FetchResult) (cache : Option Cert)
    (token : String) : Except VErr JsonDoc × Option Cert :=
  match parseStage prims token with
  | .error e => (.error e, cache)
  | .ok (h, p, sg, certs) =>
      match chainLoop prims certs 0 with
      | .error e => (.error e, cache)
      | .ok () =>
          match getAppleRootCA fetch cache with
          | (.error e, cache2) => (.error e, cache2)
          | (.ok anchor, cache2) => (postAnchor prims certs anchor h p sg, cache2)

/-- The per-link validity rule exactly as the spec words it: an
elliptic-curve issuer key demands a valid ECDSA signature under the child's
declared hash, an RSA issuer key a valid PKCS#1 v1.5 signature under the
child's declared hash, and any other key type is never valid. -/
def linkValidSpec (prims : CryptoPrims) (child issuer : Cert) : Bool :=
  match issuer.publicKey with
  | .ec k => prims.ecdsaVerify k child.signature child.tbsCertificateBytes child.signatureHashAlgorithm
  | .rsa k => prims.rsaPkcs1v15Verify k child.signature child.tbsCertificateBytes child.signatureHashAlgorithm
  | .otherKey _ => false

/-! ## Concurrency model for the anchor cache

`_get_apple_root_ca` is an `async` function with a single await point: the
network round-trip inside `async with httpx.AsyncClient(...)` (lines
38-40).  Under asyncio's cooperative scheduling the cache check (line 35)
and everything after the response arrives (lines 41-48) each run without
yielding, so a first call decomposes into exactly two atomic steps with a
possible interleaving between them. -/

/-- One caller's progress through `_get_apple_root_ca`: `start` is before
the cache check, `fetching` is parked at the await holding the response the
network will deliver to this caller, `done` holds the call's outcome. -/
inductive CallPhase where
  | start (fetch : FetchResult)
  | fetching (fetch : FetchResult)
  | done (result : Except VErr Cert)
deriving DecidableEq, Repr, Inhabited

/-- Shared state for two concurrent first-time callers A and B: the global
`_cached_root_ca`, each caller's phase, and the number of network fetches
issued so far. -/
structure RaceState where
  cache : Option Cert
  callerA : CallPhase
  callerB : CallPhase
  fetchCount : Nat
deriving DecidableEq, Repr, Inhabited

/-- Advance one caller by one atomic step of `_get_apple_root_ca`: the
cache check (issuing a fetch when the cache is empty), or the resumption
after the network answers (parse/fingerprint-check/store, lines 41-48).
Returns the new cache, fetch count, and caller phase. -/
def stepCall (cache : Option Cert) (fetchCount : Nat) :
    CallPhase → Option Cert × Nat × CallPhase
  | .start f =>
      match cache with
      | some c => (some c, fetchCount, .done (.ok c))
      | none => (none, fetchCount + 1, .fetching f)
  | .fetching f =>
      match f with
      | .fetchErr => (cache, fetchCount, .done (.error .anchorFetchFailed))
      | .fetched cert =>
          if cert.fingerprintSHA256 = appleRootCaG3Sha256 then
            (some cert, fetchCount, .done (.ok cert))
          else (cache, fetchCount, .done (.error .anchorFingerprintMismatch))
  | .done r => (cache, fetchCount, .done r)

/-- Run a schedule: `true` steps caller A, `false` steps caller B. -/
def runRace : List Bool → RaceState → RaceState
  | [], st => st
  | b :: rest, st =>
      if b then
        let t := stepCall st.cache st.fetchCount st.callerA
        runRace rest { cache := t.1, callerA := t.2.2, callerB := st.callerB, fetchCount := t.2.1 }
      else
        let t := stepCall st.cache st.fetchCount st.callerB
        runRace rest { cache := t.1, callerA := st.callerA, callerB := t.2.2, fetchCount := t.2.1 }

/-- Initial state of the two-caller race on an unpopulated cache. -/
def raceInit (fA fB : FetchResult) : RaceState :=
  { cache := none, callerA := .start fA, callerB := .start fB, fetchCount := 0 }

/-- A caller that has passed the cache check accounts for at most one
issued fetch. -/
def phaseWeight : CallPhase → Nat
  | .start _ => 0
  | .fetching _ => 1
  | .done _ => 1

/-- A phase never reports a successful certificate whose fingerprint is not
the pin. -/
def phaseOkPinned (pc : CallPhase) : Prop :=
  ∀ c, pc = .done (.ok c) → c.fingerprintSHA256 = appleRootCaG3Sha256

/-- The race invariant: the fetch count is bounded by the callers that have
passed the cache check, and the cache and every completed caller only hold
pin-matching certificates. -/
def RaceInv (st : RaceState) : Prop :=
  st.fetchCount ≤ phaseWeight st.callerA + phaseWeight st.callerB ∧
  (∀ c, st.cache = some c → c.fingerprintSHA256 = appleRootCaG3Sha256) ∧
  phaseOkPinned st.callerA ∧ phaseOkPinned st.callerB

/-! ## Test fixtures (concrete oracles and certificates for witnesses) -/

/-- Oracles that fail everything: all signature checks false, all parses
`none`. -/
def nullPrims : CryptoPrims where
  ecdsaVerify := fun _ _ _ _ => false
  rsaPkcs1v15Verify := fun _ _ _ _ => false
  jsonParseHeader := fun _ => none
  certEntryParse := fun _ => none
  jsonParsePayload := fun _ => none

/-- A leaf/intermediate certificate with an elliptic-curve key. -/
def leafCert : Cert where
  signature := [2]
  tbsCertificateBytes := [1]
  signatureHashAlgorithm := .sha384
  publicKey := .ec 0
  fingerprintSHA256 := "leaffp"

/-- A certificate whose key is neither EC nor RSA. -/
def otherKeyCert : Cert where
  signature := [3]
  tbsCertificateBytes := [4]
  signatureHashAlgorithm := .sha256
  publicKey := .otherKey 9
  fingerprintSHA256 := "otherfp"

/-- An anchor certificate with an EC key and the pinned fingerprint. -/
def anchorEc : Cert where
  signature := [5]
  tbsCertificateBytes := [6]
  signatureHashAlgorithm := .sha384
  publicKey := .ec 1
  fingerprintSHA256 := appleRootCaG3Sha256

/-- An anchor certificate with a non-EC, non-RSA key and the pinned
fingerprint. -/
def anchorOtherKey : Cert where
  signature := [5]
  tbsCertificateBytes := [6]
  signatureHashAlgorithm := .sha384
  publicKey := .otherKey 3
  fingerprintSHA256 := appleRootCaG3Sha256

/-- A fetched certificate whose fingerprint does not match the pin. -/
def badFingerprintCert : Cert where
  signature := [5]
  tbsCertificateBytes := [6]
  signatureHashAlgorithm := .sha384
  publicKey := .ec 2
  fingerprintSHA256 := "deadbeef"

/-- Oracles under which everything passes: a two-entry chain of
`leafCert`s, all signatures valid, payload parse succeeding. -/
def allOkPrims : CryptoPrims where
  ecdsaVerify := fun _ _ _ _ => true
  rsaPkcs1v15Verify := fun _ _ _ _ => true
  jsonParseHeader := fun _ => some (.objWithX5c ["a", "b"])
  certEntryParse := fun _ => some leafCert
  jsonParsePayload := fun _ => some ⟨7⟩

/-- Oracles under which the chain verifies (all chain certificates declare
SHA-384) but the JWS signature check (always SHA-256) fails, and the
payload never parses. -/
def sigFailPrims : CryptoPrims where
  ecdsaVerify := fun _ _ _ alg => alg == .sha384
  rsaPkcs1v15Verify := fun _ _ _ _ => false
  jsonParseHeader := fun _ => some (.objWithX5c ["a", "b"])
  certEntryParse := fun _ => some leafCert
  jsonParsePayload := fun _ => none

/-- Oracles whose chain has a non-EC/RSA issuer key at the internal link:
entry `"b"` (the issuer of link 0) parses to `otherKeyCert`. -/
def otherIssuerPrims : CryptoPrims where
  ecdsaVerify := fun _ _ _ _ => true
  rsaPkcs1v15Verify := fun _ _ _ _ => true
  jsonParseHeader := fun _ => some (.objWithX5c ["a", "b"])
  certEntryParse := fun s => if s = "a" then some leafCert else some otherKeyCert
  jsonParsePayload := fun _ => some ⟨7⟩

/-- Oracles under which only key 0 verifies, so internal links (issuer key
0) pass and the final link to `anchorEc` (key 1) fails. -/
def finalLinkFailPrims : CryptoPrims where
  ecdsaVerify := fun k _ _ _ => k == 0
  rsaPkcs1v15Verify := fun _ _ _ _ => false
  jsonParseHeader := fun _ => some (.objWithX5c ["a", "b"])
  certEntryParse := fun _ => some leafCert
  jsonParsePayload := fun _ => some ⟨7⟩

/-- Oracles whose `x5c` fails to parse at index 0 (entry `"bad"` first). -/
def badEntryFirstPrims : CryptoPrims where
  ecdsaVerify := fun _ _ _ _ => true
  rsaPkcs1v15Verify := fun _ _ _ _ => true
  jsonParseHeader := fun _ => some (.objWithX5c ["bad", "good"])
  certEntryParse := fun s => if s = "bad" then none else some leafCert
  jsonParsePayload := fun _ => some ⟨7⟩

/-- Oracles whose `x5c` fails to parse at index 1 (entry `"bad"` second). -/
def badEntrySecondPrims : CryptoPrims where
  ecdsaVerify := fun _ _ _ _ => true
  rsaPkcs1v15Verify := fun _ _ _ _ => true
  jsonParseHeader := fun _ => some (.objWithX5c ["good", "bad"])
  certEntryParse := fun s => if s = "bad" then none else some leafCert
  jsonParsePayload := fun _ => some ⟨7⟩

/-- Oracles under which the header parses as a JSON value that is not an
object (`json.loads` succeeds but `.get` would not exist). -/
def nonObjectHeaderPrims : CryptoPrims where
  ecdsaVerify := fun _ _ _ _ => false
  rsaPkcs1v15Verify := fun _ _ _ _ => false
  jsonParseHeader := fun _ => some .notAnObject
  certEntryParse := fun _ => none
  jsonParsePayload := fun _ => none

/-- A token whose signature segment decodes to 64 raw bytes. -/
def tok64 : String := "AAAA.AAAA." ++ String.mk (List.replicate 86 'A')

/-- A token with an undecodable payload segment and a 64-byte signature. -/
def tokBadPayload : String := "AAAA.!!!." ++ String.mk (List.replicate 86 'A')

/-! ## Helper lemmas -/

/-- A single link check succeeds exactly when the spec's per-link rule holds. -/
theorem verifyCertSignedBy_ok_iff (prims : CryptoPrims) (child issuer : Cert) :
    verifyCertSignedBy prims child issuer = .ok () ↔
      linkValidSpec prims child issuer = true := by
  cases h : issuer.publicKey <;>
    simp only [verifyCertSignedBy, linkValidSpec, h] <;>
    first
      | (split <;> simp_all)
      | simp

/-- A single link check fails exactly on the spec-invalid links, and then
returns some `LinkErr`. -/
theorem verifyCertSignedBy_error_of_invalid (prims : CryptoPrims) (child issuer : Cert)
    (h : linkValidSpec prims child issuer = false) :
    ∃ e, verifyCertSignedBy prims child issuer = .error e := by
  cases hv : verifyCertSignedBy prims child issuer with
  | ok u =>
      cases u
      rw [verifyCertSignedBy_ok_iff] at hv
      rw [hv] at h
      exact absurd h (by simp)
  | error e => exact ⟨e, rfl⟩

/-- The chain loop accepts exactly the internally consistent chains. -/
theorem chainLoop_ok_iff (prims : CryptoPrims) (certs : List Cert) : ∀ k : Nat,
    chainLoop prims certs k = .ok () ↔
      List.Chain' (fun a b => linkValidSpec prims a b = true) certs := by
  induction certs with
  | nil => intro k; simp [chainLoop]
  | cons c1 rest ih =>
    intro k
    cases rest with
    | nil => simp [chainLoop]
    | cons c2 rest2 =>
      rw [List.chain'_cons]
      cases hv : verifyCertSignedBy prims c1 c2 with
      | ok u =>
          cases u
          have hval : linkValidSpec prims c1 c2 = true :=
            (verifyCertSignedBy_ok_iff prims c1 c2).1 hv
          simp only [chainLoop, hv]
          rw [ih (k + 1)]
          simp [hval]
      | error e =>
          have hval : linkValidSpec prims c1 c2 ≠ true := by
            intro hval
            have := (verifyCertSignedBy_ok_iff prims c1 c2).2 hval
            rw [this] at hv
            exact Except.noConfusion hv
          simp [chainLoop, hv, hval]

/-- On the first spec-invalid link `i`, the chain loop started at offset `k`
reports `chainBrokenAt (k + i)` wrapping exactly the error of that link's
check. -/
theorem chainLoop_break (prims : CryptoPrims) (certs : List Cert) :
    ∀ (k i : Nat) (hi : i + 1 < certs.length),
      (∀ j (hj : j < i),
        linkValidSpec prims (certs.get ⟨j, by omega⟩) (certs.get ⟨j + 1, by omega⟩) = true) →
      linkValidSpec prims (certs.get ⟨i, by omega⟩) (certs.get ⟨i + 1, hi⟩) = false →
      ∃ e, chainLoop prims certs k = .error (.chainBrokenAt (k + i) e) ∧
        verifyCertSignedBy prims (certs.get ⟨i, by omega⟩) (certs.get ⟨i + 1, hi⟩) = .error e := by
  induction certs with
  | nil => intro k i hi; simp at hi
  | cons c1 rest ih =>
    intro k i hi hprev hfail
    cases rest with
    | nil => simp at hi
    | cons c2 rest2 =>
      cases i with
      | zero =>
          obtain ⟨e, he⟩ := verifyCertSignedBy_error_of_invalid prims c1 c2 hfail
          refine ⟨e, ?_, he⟩
          simp [chainLoop, he]
      | succ i' =>
          have hval : linkValidSpec prims c1 c2 = true := hprev 0 (by omega)
          have hok : verifyCertSignedBy prims c1 c2 = .ok () :=
            (verifyCertSignedBy_ok_iff prims c1 c2).2 hval
          have hi' : i' + 1 < (c2 :: rest2).length := by
            simp at hi ⊢; omega
          have hprev' : ∀ j (hj : j < i'),
              linkValidSpec prims ((c2 :: rest2).get ⟨j, by omega⟩)
                ((c2 :: rest2).get ⟨j + 1, by omega⟩) = true := by
            intro j hj
            exact hprev (j + 1) (by omega)
          have hfail' : linkValidSpec prims ((c2 :: rest2).get ⟨i', by omega⟩)
              ((c2 :: rest2).get ⟨i' + 1, hi'⟩) = false := hfail
          obtain ⟨e, he, hv⟩ := ih (k + 1) i' hi' hprev' hfail'
          refine ⟨e, ?_, hv⟩
          have harith : k + 1 + i' = k + (i' + 1) := by omega
          simp only [chainLoop, hok]
          rw [he, harith]

/-- A successful anchor lookup leaves the returned certificate in the cache. -/
theorem getAppleRootCA_ok_cache (fetch : FetchResult) (cache : Option Cert)
    (a : Cert) (st : Option Cert) (h : getAppleRootCA fetch cache = (.ok a, st)) :
    st = some a := by
  cases cache with
  | some c =>
      simp only [getAppleRootCA, Prod.mk.injEq] at h
      obtain ⟨h1, h2⟩ := h
      injection h1 with h1
      rw [← h2, h1]
  | none =>
      cases fetch with
      | fetchErr => simp [getAppleRootCA] at h
      | fetched cert =>
          simp only [getAppleRootCA] at h
          split at h
          · simp only [Prod.mk.injEq] at h
            obtain ⟨h1, h2⟩ := h
            injection h1 with h1
            rw [← h2, h1]
          · simp at h

/-- Entry parsing preserves the number of entries. -/
theorem parseCertEntries_length (f : String → Option Cert) :
    ∀ (l : List String) (certs : List Cert),
      parseCertEntries f l = some certs → certs.length = l.length := by
  intro l
  induction l with
  | nil => intro certs h; simp [parseCertEntries] at h; simp [← h]
  | cons c cs ih =>
      intro certs h
      simp only [parseCertEntries] at h
      cases hf : f c with
      | none => rw [hf] at h; simp at h
      | some cert =>
          rw [hf] at h
          cases hr : parseCertEntries f cs with
          | none => rw [hr] at h; simp at h
          | some certs' =>
              rw [hr] at h
              simp at h
              subst h
              simp [ih certs' hr]

/-- One anchor lookup preserves the fingerprint invariant and only returns
pin-matching certificates. -/
theorem getAppleRootCA_pinned (fetch : FetchResult) (cache : Option Cert)
    (hinv : ∀ c, cache = some c → c.fingerprintSHA256 = appleRootCaG3Sha256) :
    (∀ c, (getAppleRootCA fetch cache).1 = .ok c →
        c.fingerprintSHA256 = appleRootCaG3Sha256) ∧
    (∀ c, (getAppleRootCA fetch cache).2 = some c →
        c.fingerprintSHA256 = appleRootCaG3Sha256) := by
  cases cache with
  | some c0 =>
      have h0 := hinv c0 rfl
      constructor
      · intro c hc
        simp only [getAppleRootCA] at hc
        injection hc with hc
        rw [← hc]; exact h0
      · intro c hc
        simp only [getAppleRootCA] at hc
        injection hc with hc
        rw [← hc]; exact h0
  | none =>
      cases fetch with
      | fetchErr => constructor <;> intro c hc <;> simp [getAppleRootCA] at hc
      | fetched cert =>
          by_cases hf : cert.fingerprintSHA256 = appleRootCaG3Sha256
          · constructor <;> intro c hc <;>
              simp only [getAppleRootCA, if_pos hf] at hc <;>
              injection hc with hc <;> rw [← hc] <;> exact hf
          · constructor <;> intro c hc <;>
              simp [getAppleRootCA, if_neg hf] at hc

/-- A sequence of anchor lookups preserves the fingerprint invariant, and
every successful result is pin-matching. -/
theorem anchorCalls_pinned (fetches : List FetchResult) : ∀ (cache : Option Cert),
    (∀ c, cache = some c → c.fingerprintSHA256 = appleRootCaG3Sha256) →
    (∀ r ∈ (anchorCalls fetches cache).1, ∀ c, r = .ok c →
        c.fingerprintSHA256 = appleRootCaG3Sha256) ∧
    (∀ c, (anchorCalls fetches cache).2 = some c →
        c.fingerprintSHA256 = appleRootCaG3Sha256) := by
  induction fetches with
  | nil =>
      intro cache hinv
      constructor
      · intro r hr; simp [anchorCalls] at hr
      · intro c hc; simp only [anchorCalls] at hc; exact hinv c hc
  | cons f fs ih =>
      intro cache hinv
      have step := getAppleRootCA_pinned f cache hinv
      have rest := ih (getAppleRootCA f cache).2 step.2
      constructor
      · intro r hr c hc
        simp only [anchorCalls, List.mem_cons] at hr
        cases hr with
        | inl h1 => exact step.1 c (h1 ▸ hc ▸ rfl)
        | inr h2 => exact rest.1 r h2 c hc
      · intro c hc
        simp only [anchorCalls] at hc
        exact rest.2 c hc

/-- The link check only consults the two signature oracles. -/
theorem verifyCertSignedBy_congr (p q : CryptoPrims)
    (hec : p.ecdsaVerify = q.ecdsaVerify)
    (hrsa : p.rsaPkcs1v15Verify = q.rsaPkcs1v15Verify) (child issuer : Cert) :
    verifyCertSignedBy p child issuer = verifyCertSignedBy q child issuer := by
  cases issuer.publicKey <;> simp [verifyCertSignedBy, hec, hrsa]

/-- The chain loop only consults the two signature oracles. -/
theorem chainLoop_congr (p q : CryptoPrims)
    (hec : p.ecdsaVerify = q.ecdsaVerify)
    (hrsa : p.rsaPkcs1v15Verify = q.rsaPkcs1v15Verify) :
    ∀ (certs : List Cert) (k : Nat), chainLoop p certs k = chainLoop q certs k := by
  intro certs
  induction certs with
  | nil => intro k; rfl
  | cons c1 rest ih =>
      intro k
      cases rest with
      | nil => rfl
      | cons c2 rest2 =>
          simp only [chainLoop, verifyCertSignedBy_congr p q hec hrsa c1 c2]
          cases verifyCertSignedBy q c1 c2 with
          | ok u => cases u; exact ih (k + 1)
          | error e => rfl

/-- Every `postAnchor` outcome other than `malformedPayload` is reached
before the payload parser is consulted, so it is unchanged by replacing
that parser. -/
theorem postAnchor_payload_irrel (p : CryptoPrims) (pp : List Nat → Option JsonDoc)
    (certs : List Cert) (anchor : Cert) (hseg pseg sseg : String) (e : VErr)
    (he : postAnchor p certs anchor hseg pseg sseg = .error e)
    (hne : e ≠ .malformedPayload) :
    postAnchor { p with jsonParsePayload := pp } certs anchor hseg pseg sseg = .error e := by
  have hv : verifyCertSignedBy { p with jsonParsePayload := pp } certs.getLast! anchor =
      verifyCertSignedBy p certs.getLast! anchor :=
    verifyCertSignedBy_congr _ p rfl rfl certs.getLast! anchor
  unfold postAnchor at he ⊢
  rw [hv]
  cases hfin : verifyCertSignedBy p certs.getLast! anchor with
  | error e0 => simp only [hfin] at he ⊢; exact he
  | ok u =>
      cases u
      simp only [hfin] at he ⊢
      cases hsig : b64urlDecode sseg with
      | none => simp only [hsig] at he ⊢; exact he
      | some rawSig =>
          simp only [hsig] at he ⊢
          by_cases hlen : rawSig.length ≠ 64
          · simp only [if_pos hlen] at he ⊢; exact he
          · simp only [if_neg hlen] at he ⊢
            rcases hpk : certs.head!.publicKey with k | k | k
            · simp only [hpk] at he ⊢
              by_cases hok : p.ecdsaVerify k
                  (encodeDssSignature (natFromBytesBE (rawSig.take 32))
                    (natFromBytesBE (rawSig.drop 32)))
                  (utf8Bytes (hseg ++ "." ++ pseg)) .sha256 = true
              · simp only [if_pos hok] at he
                exfalso
                cases hpl : (b64urlDecode pseg).bind p.jsonParsePayload with
                | none =>
                    simp only [hpl] at he
                    injection he with he
                    exact hne he.symm
                | some payload =>
                    simp only [hpl] at he
                    exact Except.noConfusion he
              · simp only [if_neg hok] at he ⊢
                exact he
            · simp only [hpk] at he ⊢
              exact he
            · simp only [hpk] at he ⊢
              exact he

/-- One race step by either caller preserves the race invariant. -/
theorem stepCall_inv (cache : Option Cert) (n : Nat) (pc : CallPhase)
    (hcache : ∀ c, cache = some c → c.fingerprintSHA256 = appleRootCaG3Sha256)
    (hpc : phaseOkPinned pc) :
    let t := stepCall cache n pc
    (t.2.1 + phaseWeight pc ≤ n + phaseWeight t.2.2) ∧
    (∀ c, t.1 = some c → c.fingerprintSHA256 = appleRootCaG3Sha256) ∧
    phaseOkPinned t.2.2 := by
  cases pc with
  | start f =>
      cases hc : cache with
      | some c0 =>
          refine ⟨by simp [stepCall, phaseWeight], ?_, ?_⟩
          · intro c hcc
            simp only [stepCall] at hcc
            injection hcc with hcc
            exact hcache c (by rw [hc, hcc])
          · intro c hcc
            simp only [stepCall] at hcc
            injection hcc with h1
            injection h1 with h2
            exact hcache c (by rw [hc, h2])
      | none =>
          refine ⟨by simp [stepCall, phaseWeight], ?_, ?_⟩
          · intro c hcc; simp [stepCall] at hcc
          · intro c hcc; simp [stepCall] at hcc
  | fetching f =>
      cases f with
      | fetchErr =>
          refine ⟨by simp [stepCall, phaseWeight], ?_, ?_⟩
          · intro c hcc; simp only [stepCall] at hcc; exact hcache c hcc
          · intro c hcc; simp [stepCall] at hcc
      | fetched cert =>
          by_cases hf : cert.fingerprintSHA256 = appleRootCaG3Sha256
          · refine ⟨by simp [stepCall, phaseWeight, if_pos hf], ?_, ?_⟩
            · intro c hcc
              simp only [stepCall, if_pos hf] at hcc
              injection hcc with hcc
              rw [← hcc]; exact hf
            · intro c hcc
              simp only [stepCall, if_pos hf] at hcc
              injection hcc with h1
              injection h1 with h2
              rw [← h2]; exact hf
          · refine ⟨by simp [stepCall, phaseWeight, if_neg hf], ?_, ?_⟩
            · intro c hcc
              simp only [stepCall, if_neg hf] at hcc
              exact hcache c hcc
            · intro c hcc
              simp only [stepCall, if_neg hf] at hcc
              injection hcc with h1
              exact Except.noConfusion h1
  | done r =>
      refine ⟨by simp [stepCall, phaseWeight], ?_, ?_⟩
      · intro c hcc; simp only [stepCall] at hcc; exact hcache c hcc
      · intro c hcc
        simp only [stepCall] at hcc
        injection hcc with hcc
        exact hpc c (by rw [hcc])

/-- Any schedule preserves the race invariant. -/
theorem runRace_inv : ∀ (sched : List Bool) (st : RaceState),
    RaceInv st → RaceInv (runRace sched st) := by
  intro sched
  induction sched with
  | nil => intro st h; exact h
  | cons b rest ih =>
      intro st h
      obtain ⟨hcount, hcache, hA, hB⟩ := h
      cases b with
      | true =>
          have step := stepCall_inv st.cache st.fetchCount st.callerA hcache hA
          refine ih _ ⟨?_, step.2.1, step.2.2, hB⟩
          have := step.1
          simp only at this ⊢
          omega
      | false =>
          have step := stepCall_inv st.cache st.fetchCount st.callerB hcache hB
          refine ih _ ⟨?_, step.2.1, hA, step.2.2⟩
          have := step.1
          simp only at this ⊢
          omega

/-! ## Claim theorems -/

/-- Claim C7: for every input whose number of dot-separated segments is not
exactly 3, `verify_apple_jws` fails with the malformed-token error and
leaves the anchor cache untouched; the result does not depend on the
crypto, parsing or network oracles, so the check happens before any
decoding, certificate parsing, network access or signature work. -/
theorem c7_malformed_token_before_any_work (prims : CryptoPrims) (fetch : FetchResult)
    (cache : Option Cert) (token : String)
    (h : (splitOnDot token).length ≠ 3) :
    verifyAppleJws prims fetch cache token = (.error .malformedToken, cache) := by
  have hp : parseStage prims token = .error .malformedToken := by
    cases hs : splitOnDot token with
    | nil => simp [parseStage, hs]
    | cons a t1 =>
        cases t1 with
        | nil => simp [parseStage, hs]
        | cons b t2 =>
            cases t2 with
            | nil => simp [parseStage, hs]
            | cons c t3 =>
                cases t3 with
                | nil => rw [hs] at h; simp at h
                | cons d t4 => simp [parseStage, hs]
  simp [verifyAppleJws, hp]

/-- Witness for C7 at the one-segment input `"abc"`. -/
theorem c7_witness :
    (splitOnDot "abc").length ≠ 3 ∧
    verifyAppleJws nullPrims .fetchErr none "abc" = (.error .malformedToken, none) :=
  ⟨by decide, c7_malformed_token_before_any_work nullPrims .fetchErr none "abc" (by decide)⟩

/-- Claim C2: starting from the empty cache, every certificate the anchor
getter ever returns successfully, and every certificate ever stored in the
cache, has the pinned SHA-256 fingerprint; fetching a certificate whose
fingerprint differs fails with `anchorFingerprintMismatch` and leaves the
cache empty. -/
theorem c2_anchor_fingerprint_invariant (fetches : List FetchResult) :
    (∀ r ∈ (anchorCalls fetches none).1, ∀ c, r = .ok c →
        c.fingerprintSHA256 = appleRootCaG3Sha256) ∧
    (∀ c, (anchorCalls fetches none).2 = some c →
        c.fingerprintSHA256 = appleRootCaG3Sha256) ∧
    (∀ c, c.fingerprintSHA256 ≠ appleRootCaG3Sha256 →
        getAppleRootCA (.fetched c) none = (.error .anchorFingerprintMismatch, none)) := by
  have h := anchorCalls_pinned fetches none (fun c hc => Option.noConfusion hc)
  refine ⟨h.1, h.2, ?_⟩
  intro c hc
  simp [getAppleRootCA, hc]

/-- Witness for C2: a fetched certificate with a wrong fingerprint is
rejected and not cached. -/
theorem c2_witness :
    badFingerprintCert.fingerprintSHA256 ≠ appleRootCaG3Sha256 ∧
    getAppleRootCA (.fetched badFingerprintCert) none =
      (.error .anchorFingerprintMismatch, none) :=
  ⟨by decide, (c2_anchor_fingerprint_invariant []).2.2 badFingerprintCert (by decide)⟩

/-- Claim C8: after a successful verification, running the same token again
from the resulting cache yields the same decoded payload and the same
cache, whatever the network would now answer — the anchor lookup is served
from the cache with no I/O, so the result depends only on the token and the
cached anchor. -/
theorem c8_idempotent_after_success (prims : CryptoPrims) (fetch1 fetch2 : FetchResult)
    (cache st : Option Cert) (token : String) (payload : JsonDoc)
    (h : verifyAppleJws prims fetch1 cache token = (.ok payload, st)) :
    verifyAppleJws prims fetch2 st token = (.ok payload, st) := by
  unfold verifyAppleJws at h ⊢
  cases hp : parseStage prims token with
  | error e => simp [hp] at h
  | ok quad =>
      obtain ⟨hseg, pseg, sseg, certs⟩ := quad
      simp only [hp] at h ⊢
      cases hc : chainLoop prims certs 0 with
      | error e => simp [hc] at h
      | ok u =>
          cases u
          simp only [hc] at h ⊢
          cases hg : getAppleRootCA fetch1 cache with
          | mk ra st1 =>
              cases ra with
              | error e0 => simp [hg] at h
              | ok anchor =>
                  simp only [hg, Prod.mk.injEq] at h
                  obtain ⟨h1, h2⟩ := h
                  have hcached : st1 = some anchor :=
                    getAppleRootCA_ok_cache fetch1 cache anchor st1 hg
                  rw [← h2, hcached]
                  simp only [getAppleRootCA]
                  rw [h1]

/-- Witness for C8: a successful run caches the anchor, and a second run of
the same token succeeds identically even when the network would now fail. -/
theorem c8_witness :
    verifyAppleJws allOkPrims (.fetched anchorEc) none tok64 = (.ok ⟨7⟩, some anchorEc) ∧
    verifyAppleJws allOkPrims .fetchErr (some anchorEc) tok64 = (.ok ⟨7⟩, some anchorEc) :=
  ⟨by decide,
   c8_idempotent_after_success allOkPrims (.fetched anchorEc) .fetchErr none
     (some anchorEc) tok64 ⟨7⟩ (by decide)⟩

/-- Claim C10: any failure other than `malformedPayload` is produced
without consulting the payload JSON parser: replacing that parser does not
change the outcome, so unverified payload bytes are never parsed (for
instance, a token with an invalid signature and an undecodable payload
segment reports `invalidSignature`, never `malformedPayload`). -/
theorem c10_payload_parsed_only_after_verification (prims : CryptoPrims)
    (pp : List Nat → Option JsonDoc) (fetch : FetchResult) (cache st : Option Cert)
    (token : String) (e : VErr)
    (h : verifyAppleJws prims fetch cache token = (.error e, st))
    (hne : e ≠ .malformedPayload) :
    verifyAppleJws { prims with jsonParsePayload := pp } fetch cache token =
      (.error e, st) := by
  have hparse : parseStage { prims with jsonParsePayload := pp } token =
      parseStage prims token := rfl
  have hchain := chainLoop_congr { prims with jsonParsePayload := pp } prims rfl rfl
  unfold verifyAppleJws at h ⊢
  rw [hparse]
  cases hp : parseStage prims token with
  | error e0 => simp only [hp] at h ⊢; exact h
  | ok quad =>
      obtain ⟨hseg, pseg, sseg, certs⟩ := quad
      simp only [hp] at h ⊢
      rw [hchain certs 0]
      cases hc : chainLoop prims certs 0 with
      | error e0 => simp only [hc] at h ⊢; exact h
      | ok u =>
          cases u
          simp only [hc] at h ⊢
          cases hg : getAppleRootCA fetch cache with
          | mk ra st1 =>
              cases ra with
              | error e0 => simp only [hg] at h ⊢; exact h
              | ok anchor =>
                  simp only [hg, Prod.mk.injEq] at h ⊢
                  obtain ⟨h1, h2⟩ := h
                  exact ⟨postAnchor_payload_irrel prims pp certs anchor hseg pseg sseg
                    e h1 hne, h2⟩

/-- Witness for C10: a token whose signature fails and whose payload
segment is garbage reports `invalidSignature`, and still does under a
payload parser that would succeed on anything. -/
theorem c10_witness :
    verifyAppleJws sigFailPrims (.fetched anchorEc) none tokBadPayload =
      (.error .invalidSignature, some anchorEc) ∧
    VErr.invalidSignature ≠ VErr.malformedPayload ∧
    verifyAppleJws { sigFailPrims with jsonParsePayload := fun _ => some ⟨9⟩ }
      (.fetched anchorEc) none tokBadPayload = (.error .invalidSignature, some anchorEc) :=
  ⟨by decide, by decide,
   c10_payload_parsed_only_after_verification sigFailPrims (fun _ => some ⟨9⟩)
     (.fetched anchorEc) none (some anchorEc) tokBadPayload .invalidSignature
     (by decide) (by decide)⟩

/-- Claim C1: once the token parses to a chain of certificates and the
anchor is obtained, (a) the internal chain loop accepts exactly when every
link `i` satisfies the spec's per-link rule (ECDSA for EC issuer keys,
PKCS#1 v1.5 for RSA issuer keys, under the child's declared hash), and the
final check against the anchor accepts exactly when the last element
satisfies the same rule against the anchor; (b) the first internally
invalid link `i` makes verification fail with `chainBrokenAt i`; (c) an
internally consistent chain whose last element does not verify against the
anchor makes verification fail with the distinct error `chainNotTrusted`. -/
theorem c1_chain_validation_correct (prims : CryptoPrims) (fetch : FetchResult)
    (cache cache2 : Option Cert) (token hseg pseg sseg : String) (certs : List Cert)
    (anchor : Cert)
    (hparse : parseStage prims token = .ok (hseg, pseg, sseg, certs))
    (hanchor : getAppleRootCA fetch cache = (.ok anchor, cache2)) :
    ((chainLoop prims certs 0 = .ok () ↔
        ∀ i (hi : i < certs.length - 1),
          linkValidSpec prims (certs.get ⟨i, by omega⟩) (certs.get ⟨i + 1, by omega⟩) = true) ∧
      (verifyCertSignedBy prims certs.getLast! anchor = .ok () ↔
        linkValidSpec prims certs.getLast! anchor = true)) ∧
    (∀ i (hi : i < certs.length - 1),
        (∀ j (hj : j < i),
          linkValidSpec prims (certs.get ⟨j, by omega⟩) (certs.get ⟨j + 1, by omega⟩) = true) →
        linkValidSpec prims (certs.get ⟨i, by omega⟩) (certs.get ⟨i + 1, by omega⟩) = false →
        ∃ e, verifyAppleJws prims fetch cache token = (.error (.chainBrokenAt i e), cache)) ∧
    ((∀ i (hi : i < certs.length - 1),
        linkValidSpec prims (certs.get ⟨i, by omega⟩) (certs.get ⟨i + 1, by omega⟩) = true) →
      linkValidSpec prims certs.getLast! anchor = false →
      verifyAppleJws prims fetch cache token = (.error .chainNotTrusted, cache2)) := by
  refine ⟨⟨?_, verifyCertSignedBy_ok_iff prims certs.getLast! anchor⟩, ?_, ?_⟩
  · constructor
    · intro h i hi
      exact (List.chain'_iff_get.1 ((chainLoop_ok_iff prims certs 0).1 h)) i hi
    · intro h
      exact (chainLoop_ok_iff prims certs 0).2 (List.chain'_iff_get.2 (fun i hi => h i hi))
  · intro i hi hprev hfail
    have hi' : i + 1 < certs.length := by omega
    obtain ⟨e, he, hv⟩ :=
      chainLoop_break prims certs 0 i hi' (fun j hj => hprev j hj) hfail
    refine ⟨e, ?_⟩
    simp only [verifyAppleJws, hparse, he, Nat.zero_add]
  · intro hall hlast
    have hok : chainLoop prims certs 0 = .ok () :=
      (chainLoop_ok_iff prims certs 0).2 (List.chain'_iff_get.2 (fun i hi => hall i hi))
    obtain ⟨e, he⟩ := verifyCertSignedBy_error_of_invalid prims certs.getLast! anchor hlast
    simp only [verifyAppleJws, hparse, hok, hanchor, postAnchor, he]

/-- Witness for C1: an internally consistent two-certificate chain whose
final link fails against the anchor yields `chainNotTrusted`. -/
theorem c1_witness :
    verifyAppleJws finalLinkFailPrims (.fetched anchorEc) none "AAAA.AAAA.AAAA" =
      (.error .chainNotTrusted, some anchorEc) :=
  (c1_chain_validation_correct finalLinkFailPrims (.fetched anchorEc) none (some anchorEc)
      "AAAA.AAAA.AAAA" "AAAA" "AAAA" "AAAA" [leafCert, leafCert] anchorEc
      (by decide) (by decide)).2.2
    (fun i hi => by
      have h0 : i = 0 := by
        simp at hi
        omega
      subst h0
      show linkValidSpec finalLinkFailPrims ([leafCert, leafCert].get ⟨0, Nat.zero_lt_two⟩)
          ([leafCert, leafCert].get ⟨1, Nat.one_lt_two⟩) = true
      decide)
    (by decide)

/-- Claim C3: once parsing, the chain loop, the anchor and the final link
have all succeeded and the signature segment decodes, the JWS stage fails
with `badSignatureLength` unless exactly 64 raw bytes were decoded;
otherwise it interprets the first 32 bytes as big-endian R and the last 32
as big-endian S, re-encodes them as a DER ECDSA signature, and verifies it
with ECDSA/SHA-256 under the leaf (index 0) key over the literal bytes of
`headerSegment ++ "." ++ payloadSegment`, failing with `invalidSignature`
exactly when that check fails, and proceeding to payload decoding when it
succeeds. -/
theorem c3_signature_stage_correct (prims : CryptoPrims) (fetch : FetchResult)
    (cache cache2 : Option Cert) (token hseg pseg sseg : String) (certs : List Cert)
    (anchor : Cert) (raw : List Nat) (k : Nat)
    (hparse : parseStage prims token = .ok (hseg, pseg, sseg, certs))
    (hchain : chainLoop prims certs 0 = .ok ())
    (hanchor : getAppleRootCA fetch cache = (.ok anchor, cache2))
    (hfinal : verifyCertSignedBy prims certs.getLast! anchor = .ok ())
    (hraw : b64urlDecode sseg = some raw)
    (hleaf : certs.head!.publicKey = .ec k) :
    (raw.length ≠ 64 →
      verifyAppleJws prims fetch cache token =
        (.error (.badSignatureLength raw.length), cache2)) ∧
    (raw.length = 64 →
      (prims.ecdsaVerify k
          (encodeDssSignature (natFromBytesBE (raw.take 32)) (natFromBytesBE (raw.drop 32)))
          (utf8Bytes (hseg ++ "." ++ pseg)) .sha256 = false →
        verifyAppleJws prims fetch cache token = (.error .invalidSignature, cache2)) ∧
      (prims.ecdsaVerify k
          (encodeDssSignature (natFromBytesBE (raw.take 32)) (natFromBytesBE (raw.drop 32)))
          (utf8Bytes (hseg ++ "." ++ pseg)) .sha256 = true →
        verifyAppleJws prims fetch cache token =
          (match (b64urlDecode pseg).bind prims.jsonParsePayload with
           | none => .error .malformedPayload
           | some payload => .ok payload, cache2))) := by
  have hred : verifyAppleJws prims fetch cache token =
      (postAnchor prims certs anchor hseg pseg sseg, cache2) := by
    simp only [verifyAppleJws, hparse, hchain, hanchor]
  refine ⟨?_, ?_⟩
  · intro hlen
    rw [hred]
    simp only [postAnchor, hfinal, hraw, if_pos hlen]
  · intro hlen
    have hlen' : ¬ raw.length ≠ 64 := fun hh => hh hlen
    refine ⟨?_, ?_⟩
    · intro hsigfail
      rw [hred]
      simp only [postAnchor, hfinal, hraw, hleaf]
      rw [if_neg hlen']
      rw [if_neg (by rw [hsigfail]; simp)]
    · intro hsigok
      rw [hred]
      simp only [postAnchor, hfinal, hraw, hleaf]
      rw [if_neg hlen']
      rw [if_pos hsigok]

/-- Witness for C3: a signature segment decoding to 3 bytes is rejected
with `badSignatureLength 3`. -/
theorem c3_witness :
    verifyAppleJws allOkPrims (.fetched anchorEc) none "AAAA.AAAA.AAAA" =
      (.error (.badSignatureLength 3), some anchorEc) :=
  (c3_signature_stage_correct allOkPrims (.fetched anchorEc) none (some anchorEc)
      "AAAA.AAAA.AAAA" "AAAA" "AAAA" "AAAA" [leafCert, leafCert] anchorEc [0, 0, 0] 0
      (by decide) (by decide) (by decide) (by decide) (by decide) (by decide)).1
    (by decide)

/-- Counterexample for C4: an issuer key that is neither EC nor RSA is not
reported as a standalone unsupported-algorithm error.  With an anchor whose
key is unsupported the result is exactly `chainNotTrusted` — the same error
an ordinary final-link signature failure produces (second conjunct), so the
two causes are indistinguishable; and at an internal link the result is a
`chainBrokenAt`. -/
theorem c4_counterexample :
    verifyAppleJws allOkPrims (.fetched anchorOtherKey) none "AAAA.AAAA.AAAA" =
      (.error .chainNotTrusted, some anchorOtherKey) ∧
    verifyAppleJws finalLinkFailPrims (.fetched anchorEc) none "AAAA.AAAA.AAAA" =
      (.error .chainNotTrusted, some anchorEc) ∧
    verifyAppleJws otherIssuerPrims .fetchErr none "AAAA.AAAA.AAAA" =
      (.error (.chainBrokenAt 0 .unsupportedKeyType), none) :=
  ⟨by decide, by decide, by decide⟩

/-- Claim C4 (amended): an issuer key that is neither EC nor RSA is never
accepted as valid — the link check itself fails with `unsupportedKeyType` —
but the pipeline reports it as `chainBrokenAt i` (carrying the
unsupported-key reason) at an internal link `i`, and as the generic
`chainNotTrusted` (reason discarded) when the anchor's key is
unsupported. -/
theorem c4_unsupported_key_never_accepted (prims : CryptoPrims) :
    (∀ (child issuer : Cert) (key : Nat), issuer.publicKey = .otherKey key →
        verifyCertSignedBy prims child issuer = .error .unsupportedKeyType) ∧
    (∀ (fetch : FetchResult) (cache : Option Cert) (token hseg pseg sseg : String)
        (certs : List Cert) (i key : Nat) (hi : i < certs.length - 1),
        parseStage prims token = .ok (hseg, pseg, sseg, certs) →
        (certs.get ⟨i + 1, by omega⟩).publicKey = .otherKey key →
        (∀ j (hj : j < i), linkValidSpec prims (certs.get ⟨j, by omega⟩)
            (certs.get ⟨j + 1, by omega⟩) = true) →
        verifyAppleJws prims fetch cache token =
          (.error (.chainBrokenAt i .unsupportedKeyType), cache)) ∧
    (∀ (fetch : FetchResult) (cache cache2 : Option Cert) (token hseg pseg sseg : String)
        (certs : List Cert) (anchor : Cert) (key : Nat),
        parseStage prims token = .ok (hseg, pseg, sseg, certs) →
        chainLoop prims certs 0 = .ok () →
        getAppleRootCA fetch cache = (.ok anchor, cache2) →
        anchor.publicKey = .otherKey key →
        verifyAppleJws prims fetch cache token = (.error .chainNotTrusted, cache2)) := by
  have hlink : ∀ (child issuer : Cert) (key : Nat), issuer.publicKey = .otherKey key →
      verifyCertSignedBy prims child issuer = .error .unsupportedKeyType := by
    intro child issuer key hk
    simp [verifyCertSignedBy, hk]
  refine ⟨hlink, ?_, ?_⟩
  · intro fetch cache token hseg pseg sseg certs i key hi hparse hk hprev
    have hfail : linkValidSpec prims (certs.get ⟨i, by omega⟩)
        (certs.get ⟨i + 1, by omega⟩) = false := by
      unfold linkValidSpec
      rw [hk]
    obtain ⟨e, he, hv⟩ :=
      chainLoop_break prims certs 0 i (by omega) (fun j hj => hprev j hj) hfail
    have he' : e = .unsupportedKeyType := by
      rw [hlink _ _ key hk] at hv
      injection hv with hv
      exact hv.symm
    rw [he'] at he
    simp only [verifyAppleJws, hparse, he, Nat.zero_add]
  · intro fetch cache cache2 token hseg pseg sseg certs anchor key hparse hchain hanchor hk
    have he := hlink certs.getLast! anchor key hk
    simp only [verifyAppleJws, hparse, hchain, hanchor, postAnchor, he]

/-- Witness for C4 (amended): a pinned anchor with an unsupported key type
makes verification of an internally consistent chain fail with
`chainNotTrusted`. -/
theorem c4_witness :
    verifyAppleJws allOkPrims (.fetched anchorOtherKey) none "BBBB.AAAA.AAAA" =
      (.error .chainNotTrusted, some anchorOtherKey) :=
  (c4_unsupported_key_never_accepted allOkPrims).2.2 (.fetched anchorOtherKey) none
    (some anchorOtherKey) "BBBB.AAAA.AAAA" "BBBB" "AAAA" "AAAA" [leafCert, leafCert]
    anchorOtherKey 3 (by decide) (by decide) (by decide) (by decide)

/-- Counterexample for C5: the certificate-chain parse error does not name
the offending index — an `x5c` whose entry 0 fails and an `x5c` whose entry
1 fails produce the byte-for-byte identical error
(`Cannot parse certificate chain: ...` without any index). -/
theorem c5_counterexample :
    verifyAppleJws badEntryFirstPrims .fetchErr none "AAAA.AAAA.AAAA" =
      (.error .certChainParseError, none) ∧
    verifyAppleJws badEntrySecondPrims .fetchErr none "AAAA.AAAA.AAAA" =
      (.error .certChainParseError, none) :=
  ⟨by decide, by decide⟩

/-- Claim C5 (amended): whenever any `x5c` entry fails to parse as a
certificate, verification fails with the single un-indexed
certificate-chain parse error, whatever the position of the failing entry,
and the anchor cache is untouched. -/
theorem c5_cert_parse_error_unindexed (prims : CryptoPrims) (fetch : FetchResult)
    (cache : Option Cert) (token hseg pseg sseg : String) (x5c : List String)
    (hsplit : splitOnDot token = [hseg, pseg, sseg])
    (hhdr : (b64urlDecode hseg).bind prims.jsonParseHeader = some (.objWithX5c x5c))
    (hlen : ¬ x5c.length < 2)
    (hfail : parseCertEntries prims.certEntryParse x5c = none) :
    verifyAppleJws prims fetch cache token = (.error .certChainParseError, cache) := by
  have hp : parseStage prims token = .error .certChainParseError := by
    simp only [parseStage, hsplit, hhdr, if_neg hlen, hfail]
  simp [verifyAppleJws, hp]

/-- Witness for C5 (amended) at a chain whose second entry fails to
parse. -/
theorem c5_witness :
    verifyAppleJws badEntrySecondPrims .fetchErr none "BBBB.AAAA.AAAA" =
      (.error .certChainParseError, none) :=
  c5_cert_parse_error_unindexed badEntrySecondPrims .fetchErr none "BBBB.AAAA.AAAA"
    "BBBB" "AAAA" "AAAA" ["good", "bad"] (by decide) (by decide) (by decide) (by decide)

/-- Counterexample for C6: a header segment that parses as a JSON value
which is not an object does not yield the malformed-header error — the
`.get` call on the parsed value raises an uncaught `AttributeError`
instead. -/
theorem c6_counterexample :
    verifyAppleJws nonObjectHeaderPrims .fetchErr none "AAAA.AAAA.AAAA" =
      (.error .uncaughtAttributeError, none) ∧
    VErr.uncaughtAttributeError ≠ VErr.malformedHeader :=
  ⟨by decide, by decide⟩

/-- Claim C6 (amended): the header segment is base64url-decoded tolerating
missing padding (the decode equals url-safe base64 decoding of the segment
padded with `=` to the next multiple of 4), and every failure of the
base64url decode or of the JSON parse of the header yields
`malformedHeader` with the cache untouched; a header parsing to a
non-object JSON value is the one exception, raising an uncaught
`AttributeError` instead. -/
theorem c6_header_decode_and_error :
    (∀ s : String, b64urlDecode s =
        urlsafeB64decode (s ++ String.mk (List.replicate ((4 - s.length % 4) % 4) '='))) ∧
    (∀ (prims : CryptoPrims) (fetch : FetchResult) (cache : Option Cert)
        (token hseg pseg sseg : String),
        splitOnDot token = [hseg, pseg, sseg] →
        (b64urlDecode hseg = none ∨
          ∃ bs, b64urlDecode hseg = some bs ∧ prims.jsonParseHeader bs = none) →
        verifyAppleJws prims fetch cache token = (.error .malformedHeader, cache)) := by
  constructor
  · intro s
    by_cases h : s.length % 4 = 0
    · have h4 : ¬ (4 - s.length % 4 ≠ 4) := by omega
      have hrep : (4 - s.length % 4) % 4 = 0 := by omega
      have hemp : s ++ String.mk (List.replicate 0 '=') = s := by
        apply String.ext
        rw [String.data_append]
        simp
      simp only [b64urlDecode, if_neg h4, hrep, hemp]
    · have h4 : 4 - s.length % 4 ≠ 4 := by omega
      have hm : (4 - s.length % 4) % 4 = 4 - s.length % 4 :=
        Nat.mod_eq_of_lt (by omega)
      simp only [b64urlDecode, if_pos h4, hm]
  · intro prims fetch cache token hseg pseg sseg hsplit hfail
    have hbind : (b64urlDecode hseg).bind prims.jsonParseHeader = none := by
      rcases hfail with h | ⟨bs, h1, h2⟩
      · rw [h]; rfl
      · rw [h1]; exact h2
    have hp : parseStage prims token = .error .malformedHeader := by
      simp only [parseStage, hsplit, hbind]
    simp [verifyAppleJws, hp]

/-- Witness for C6 (amended): a header segment of length 1 cannot be
base64url-decoded even after padding, so verification reports
`malformedHeader`. -/
theorem c6_witness :
    b64urlDecode "A" = none ∧
    verifyAppleJws nullPrims .fetchErr none "A.B.C" = (.error .malformedHeader, none) :=
  ⟨by decide,
   c6_header_decode_and_error.2 nullPrims .fetchErr none "A.B.C" "A" "B" "C"
     (by decide) (Or.inl (by decide))⟩

/-- Counterexample for C9: two concurrent first-time callers are not
coalesced onto a single in-flight fetch.  Under the interleaving
A-check, B-check, A-resume, B-resume — legal because the only await point
sits between the cache check and the cache store — both callers pass the
empty-cache check and two network fetches are issued, even though both
callers succeed with the same pinned certificate. -/
theorem c9_counterexample :
    (runRace [true, false, true, false]
        (raceInit (.fetched anchorEc) (.fetched anchorEc))).fetchCount = 2 ∧
    (runRace [true, false, true, false]
        (raceInit (.fetched anchorEc) (.fetched anchorEc))).callerA =
      .done (.ok anchorEc) ∧
    (runRace [true, false, true, false]
        (raceInit (.fetched anchorEc) (.fetched anchorEc))).callerB =
      .done (.ok anchorEc) :=
  ⟨by decide, by decide, by decide⟩

/-- Claim C9 (amended): two concurrent first-time calls to the anchor cache
issue at most one fetch each — up to two in total, with no single-flight
coalescing — and under every schedule the cache and every caller that
completes successfully only ever hold certificates whose SHA-256
fingerprint equals the pin. -/
theorem c9_no_single_flight_bounds (sched : List Bool) (fA fB : FetchResult) :
    (runRace sched (raceInit fA fB)).fetchCount ≤ 2 ∧
    (∀ c, (runRace sched (raceInit fA fB)).cache = some c →
        c.fingerprintSHA256 = appleRootCaG3Sha256) ∧
    (∀ c, (runRace sched (raceInit fA fB)).callerA = .done (.ok c) →
        c.fingerprintSHA256 = appleRootCaG3Sha256) ∧
    (∀ c, (runRace sched (raceInit fA fB)).callerB = .done (.ok c) →
        c.fingerprintSHA256 = appleRootCaG3Sha256) := by
  have hinit : RaceInv (raceInit fA fB) := by
    refine ⟨by simp [raceInit, phaseWeight], ?_, ?_, ?_⟩
    · intro c hc; simp [raceInit] at hc
    · intro c hc; simp [raceInit] at hc
    · intro c hc; simp [raceInit] at hc
  obtain ⟨hcount, hcache, hA, hB⟩ := runRace_inv sched (raceInit fA fB) hinit
  refine ⟨?_, hcache, hA, hB⟩
  have wa : phaseWeight (runRace sched (raceInit fA fB)).callerA ≤ 1 := by
    cases (runRace sched (raceInit fA fB)).callerA <;> simp [phaseWeight]
  have wb : phaseWeight (runRace sched (raceInit fA fB)).callerB ≤ 1 := by
    cases (runRace sched (raceInit fA fB)).callerB <;> simp [phaseWeight]
  omega

/-- Witness for C9 (amended) on the schedule that lets caller A run alone:
the fetch bound holds and the certificate cached after A's success is
pin-matching. -/
theorem c9_witness :
    (runRace [true, true] (raceInit (.fetched anchorEc) .fetchErr)).fetchCount ≤ 2 ∧
    anchorEc.fingerprintSHA256 = appleRootCaG3Sha256 :=
  ⟨(c9_no_single_flight_bounds [true, true] (.fetched anchorEc) .fetchErr).1,
   (c9_no_single_flight_bounds [true, true] (.fetched anchorEc) .fetchErr).2.1
     anchorEc (by decide)⟩

end AppleJws
